import Mathlib

/-!
Verification development for the GitHub repository analyzer
(src/github-analyzer.ts). The TypeScript source is shallowly embedded:

* JS strings are Lean `String`s; the JS string operations used by the source
  (startsWith, includes, toLowerCase, replace) are modelled on the underlying
  character lists. Case conversion is ASCII (the source only ever compares
  ASCII pattern/file-name text).
* Filesystem paths are component lists (`List String`); a real path is the
  components joined with the separator. Entry names in a real directory tree
  never contain the separator, so component concatenation models
  `path.join` faithfully.
* The filesystem itself is an inductive tree. Directory listings are encoded
  as cons-chains (`dirCons name child rest`), keeping every recursion
  structural. A `badDir` node is a directory whose `readdirSync` throws.
  File contents and sizes are outside the model (no claim touches them).
* Thrown JS exceptions are modelled by `Except String` threaded explicitly:
  the first failure propagates, later work is not performed.
-/

namespace GithubSearch

/-- Model of JS `String.prototype.toLowerCase` (ASCII range, which covers
every comparison the source performs). -/
def lowerStr (s : String) : String := ⟨s.data.map Char.toLower⟩

/-- Model of JS `String.prototype.startsWith`. -/
def startsWithJS (s pre : String) : Bool := pre.data.isPrefixOf s.data

/-- Whether `sub` occurs as a contiguous run inside `s` (JS
`String.prototype.includes`). -/
def isSubChars (sub : List Char) : List Char → Bool
  | [] => sub.isEmpty
  | c :: cs => sub.isPrefixOf (c :: cs) || isSubChars sub cs

/-- Model of JS `a.toLowerCase().includes(b.toLowerCase())`: case-insensitive
substring containment. -/
def includesCI (s sub : String) : Bool :=
  isSubChars (lowerStr sub).data (lowerStr s).data

/-- Whether a string contains a given character (JS `String.prototype.includes`
with a one-character argument, used as `pattern.includes('*')`). -/
def containsChar (s : String) (c : Char) : Bool := s.data.contains c

/-- Model of `pattern.replace(/\*/g, '.*')`: every `*` becomes `.*`,
all other characters are kept verbatim. -/
def replaceStarChars : List Char → List Char
  | [] => []
  | '*' :: rest => '.' :: '*' :: replaceStarChars rest
  | c :: rest => c :: replaceStarChars rest

/-- The regex source text built from a glob pattern by `findMatchingFiles`. -/
def globToRegex (pattern : String) : String := ⟨replaceStarChars pattern.data⟩

/-- One atom of the regex fragment the source can generate: `.` (any
character) or a literal character. The generated regex sources consist only
of literal characters, `.`, and postfix `*`; other regex metacharacters do
not occur in the patterns the claims are about, and this model treats them
as literals. -/
inductive RAtom where
  | dot : RAtom
  | lit : Char → RAtom
deriving DecidableEq

/-- Whether an atom matches one character, under the `i` flag (both sides are
lowercased, the model of JS case-insensitive matching). -/
def atomMatch : RAtom → Char → Bool
  | RAtom.dot, _ => true
  | RAtom.lit c, d => c.toLower == d.toLower

/-- The atom denoted by one regex source character: `.` is the wildcard,
anything else stands for itself. -/
def mkAtom (c : Char) : RAtom :=
  if c = '.' then RAtom.dot else RAtom.lit c

/-- Parse a regex source into a token list: each token is an atom plus a flag
recording whether a postfix `*` follows it. -/
def parseToks : List Char → List (RAtom × Bool)
  | [] => []
  | c :: '*' :: rest2 => (mkAtom c, true) :: parseToks rest2
  | c :: rest => (mkAtom c, false) :: parseToks rest

/-- Backtracking loop for a starred atom `a*` followed by continuation `f`:
succeed if the continuation matches here, or consume one `a`-matching
character and repeat. -/
def starMatch (a : RAtom) (f : List Char → Bool) : List Char → Bool
  | [] => f []
  | c :: cs => f (c :: cs) || (atomMatch a c && starMatch a f cs)

/-- Match a token list against a prefix of the character list (the remainder
of the subject may be ignored, as JS `RegExp.prototype.test` does). -/
def matchToks : List (RAtom × Bool) → List Char → Bool
  | [], _ => true
  | (_, false) :: _, [] => false
  | (a, false) :: rest, c :: cs => atomMatch a c && matchToks rest cs
  | (a, true) :: rest, s => starMatch a (matchToks rest) s

/-- Unanchored search: the token list may match starting at any position,
the model of JS `regex.test(subject)`. -/
def searchToks (toks : List (RAtom × Bool)) : List Char → Bool
  | [] => matchToks toks []
  | c :: cs => matchToks toks (c :: cs) || searchToks toks cs

/-- Model of `new RegExp(src, 'i').test(subject)` for the regex fragment the
source generates. -/
def regexTestCI (src : String) (subject : String) : Bool :=
  searchToks (parseToks src.data) subject.data

/-- A filesystem path as its separator-split components. -/
abbrev Path := List String

/-- Join path components with `/` (how a component list reads as a JS path
string). -/
def joinSlash : List String → String
  | [] => ""
  | [x] => x
  | x :: xs => x ++ "/" ++ joinSlash xs

/-- Model of `path.basename(file)`: the final path component. -/
def basenameOf (p : Path) : String := p.getLast?.getD ""

/-- Model of `file.split(path.sep).slice(-3).join('/')`: the last three path
components (or all of them, when fewer) joined with `/`. -/
def relKey (p : Path) : String := joinSlash (p.drop (p.length - 3))

/-- One pattern tested against one file, following `findMatchingFiles`:
a pattern containing `*` becomes a case-insensitive regex tested against the
base name and the three-segment fragment; otherwise both keys are tested for
case-insensitive substring containment. -/
def patternMatches (pattern : String) (p : Path) : Bool :=
  let basename := basenameOf p
  let relativePath := relKey p
  if containsChar pattern '*' then
    regexTestCI (globToRegex pattern) basename ||
      regexTestCI (globToRegex pattern) relativePath
  else
    includesCI basename pattern || includesCI relativePath pattern

/-- `patterns.some(...)` from the file filter: a file matches when some
pattern matches it. -/
def fileMatches (patterns : List String) (p : Path) : Bool :=
  patterns.any fun pattern => patternMatches pattern p

/-- Model of `findMatchingFiles(files, patterns)`. -/
def findMatchingFiles (files : List Path) (patterns : List String) :
    List Path :=
  files.filter fun file => fileMatches patterns file

/-- A filesystem tree. Directory listings are encoded as cons-chains:
`dirNil` is an empty listing, `dirCons name child rest` is one entry followed
by the remaining entries of the same directory. A directory node is a
`dirNil`/`dirCons` chain; `file` is a regular file; `badDir msg` is a
directory whose `readdirSync` throws with message `msg`. -/
inductive FSNode where
  | file : FSNode
  | badDir : String → FSNode
  | dirNil : FSNode
  | dirCons : String → FSNode → FSNode → FSNode

/-- Model of `fs.statSync(p).isDirectory()`. -/
def FSNode.isDir : FSNode → Bool
  | FSNode.file => false
  | FSNode.badDir _ => true
  | FSNode.dirNil => true
  | FSNode.dirCons _ _ _ => true

/-- The skip test of `getAllFiles`: directories whose name begins with
`.git` or equals `node_modules` are not descended into. -/
def skipName (name : String) : Bool :=
  startsWithJS name ".git" || name == "node_modules"

/-- Model of `getAllFiles(dir, fileList)`: the recursive walk. Entries are
processed in listing order; a file entry contributes its absolute path, a
directory entry is either skipped or walked recursively, and a `readdirSync`
failure anywhere aborts the whole walk (the exception is not caught here). -/
def getAllFiles : Path → FSNode → Except String (List Path)
  | _, FSNode.file => Except.error "ENOTDIR: not a directory"
  | _, FSNode.badDir msg => Except.error msg
  | _, FSNode.dirNil => Except.ok []
  | dir, FSNode.dirCons name child rest =>
    if child.isDir then
      if skipName name then
        getAllFiles dir rest
      else
        match getAllFiles (dir ++ [name]) child with
        | Except.error e => Except.error e
        | Except.ok sub =>
          match getAllFiles dir rest with
          | Except.error e => Except.error e
          | Except.ok tailFiles => Except.ok (sub ++ tailFiles)
    else
      match getAllFiles dir rest with
      | Except.error e => Except.error e
      | Except.ok tailFiles => Except.ok ((dir ++ [name]) :: tailFiles)

/-- Well-formedness of a tree as it comes from a real clone: every entry
name is nonempty (real directory entries always are). -/
def wfNames : FSNode → Bool
  | FSNode.file => true
  | FSNode.badDir _ => true
  | FSNode.dirNil => true
  | FSNode.dirCons name child rest =>
    (!(name == "")) && wfNames child && wfNames rest

/-- Model of `f.replace(localPath, '').replace(/^\//, '')` as applied by the
orchestrator and prober: for walker outputs the clone root is a prefix of
the absolute path (so the first occurrence removed by `replace` is that
prefix, and the leading separator goes with the second `replace`); on other
inputs the source would edit an interior occurrence, which never arises. -/
def stripRoot (root : Path) (p : Path) : Path :=
  if root.isPrefixOf p then p.drop root.length else p

/-- Model of `path.extname`: the suffix of the base name from its last dot,
except that a dot in position zero (hidden files like `.bashrc`) yields the
empty extension. -/
def lastDotAux : List Char → Nat → Option Nat
  | [], _ => none
  | c :: cs, i =>
    match lastDotAux cs (i + 1) with
    | some j => some j
    | none => if c = '.' then some i else none

/-- The extension characters of a base name, per `path.extname`. -/
def extnameChars (b : List Char) : List Char :=
  match lastDotAux b 0 with
  | none => []
  | some i => if i = 0 then [] else b.drop i

/-- The histogram key of one file: its lowercased extension, or
`no-extension`. -/
def fileTypeKey (p : Path) : String :=
  let ext := lowerStr ⟨extnameChars (basenameOf p).data⟩
  if ext = "" then "no-extension" else ext

/-- Bump one key of an insertion-ordered histogram, as the JS object update
`fileTypes[key] = (fileTypes[key] || 0) + 1` does. -/
def bump (l : List (String × Nat)) (k : String) : List (String × Nat) :=
  match l with
  | [] => [(k, 1)]
  | (k', n) :: rest => if k' = k then (k', n + 1) :: rest else (k', n) :: bump rest k

/-- The file-extension histogram over a file list, in first-seen key order. -/
def buildFileTypes (files : List Path) : List (String × Nat) :=
  files.foldl (fun acc f => bump acc (fileTypeKey f)) []

/-- The top-level `structure` map: each immediate child of the repository
root tagged `directory` or `file`. -/
def topStructure : FSNode → List (String × String)
  | FSNode.dirCons name child rest =>
    (name, if child.isDir then "directory" else "file") :: topStructure rest
  | _ => []

/-- Search-result record for one repository (interface `RepoInfo`). -/
structure RepoInfo where
  name : String
  owner : String
  url : String
  description : String
  stars : Nat
  language : String
deriving DecidableEq

/-- The `analysis` object assembled by `analyzeRepository`. The
`packageData` field (parsed manifest contents) and per-file sizes are not
modelled because file contents are outside the filesystem model; the error
field is `none` when the JS object carries no `error` property. -/
structure Analysis where
  totalFiles : Nat
  fileTypes : List (String × Nat)
  structureMap : List (String × String)
  readme : Option Path
  packageJson : Option Path
  specialFiles : List Path
  error : Option String
deriving DecidableEq

/-- Model of `analyzeRepository(repoPath, repo, filePatterns)`. The body is
one `try` block whose first step is the tree walk; in this model the walk is
the only operation that can throw (stat and readdir failures surface during
the walk already), so a thrown error leaves every field at its initial
default and sets `error`, and a successful walk lets every later step
complete. -/
def analyzeRepository (repoPath : Path) (t : FSNode) (filePatterns : List String) :
    Analysis :=
  match getAllFiles repoPath t with
  | Except.error e =>
    { totalFiles := 0, fileTypes := [], structureMap := [], readme := none
      packageJson := none, specialFiles := [], error := some e }
  | Except.ok allFiles =>
    { totalFiles := allFiles.length
      fileTypes := buildFileTypes allFiles
      structureMap := topStructure t
      readme := (allFiles.filter fun f => includesCI (basenameOf f) "readme").head?
      packageJson := (allFiles.filter fun f => basenameOf f == "package.json").head?
      specialFiles := (findMatchingFiles allFiles filePatterns).map (stripRoot repoPath)
      error := none }

/-- One accumulated result (interface `AnalysisResult`). -/
structure AnalysisResult where
  repo : RepoInfo
  localPath : Path
  files : List Path
  matchingFiles : List Path
  analysis : Analysis
deriving DecidableEq

/-- One repository as the orchestrator sees it: its search record plus the
outcome of `cloneRepository` (the cloned tree, or the propagated clone
error). -/
structure RepoInput where
  repo : RepoInfo
  clone : Except String FSNode

/-- The clone destination `path.join(this.tempDir, owner + '-' + name)`. -/
def localPathOf (tempDir : Path) (r : RepoInfo) : Path :=
  tempDir ++ [r.owner ++ "-" ++ r.name]

/-- The body of the per-repository `try` block in `analyzeRepositories`:
clone, walk, match, probe, assemble. Any thrown error surfaces as
`Except.error` at this boundary. -/
def processRepo (tempDir : Path) (patterns : List String) (r : RepoInput) :
    Except String AnalysisResult :=
  match r.clone with
  | Except.error e => Except.error e
  | Except.ok tree =>
    let localPath := localPathOf tempDir r.repo
    match getAllFiles localPath tree with
    | Except.error e => Except.error e
    | Except.ok allFiles =>
      Except.ok
        { repo := r.repo
          localPath := localPath
          files := allFiles.map (stripRoot localPath)
          matchingFiles :=
            (findMatchingFiles allFiles patterns).map (stripRoot localPath)
          analysis := analyzeRepository localPath tree patterns }

/-- The console line of the per-repository `catch` handler
(`Failed to analyze owner/name: ...`). -/
def failLog (r : RepoInput) (e : String) : String :=
  "Failed to analyze " ++ r.repo.owner ++ "/" ++ r.repo.name ++ ": " ++ e

/-- The `for` loop of `analyzeRepositories`: each repository is processed in
order; a success appends its result, a failure appends a console log entry
and the loop continues with the next repository. -/
def analyzeLoop (tempDir : Path) (patterns : List String) :
    List RepoInput → List AnalysisResult → List String →
    List AnalysisResult × List String
  | [], results, log => (results, log)
  | r :: rest, results, log =>
    match processRepo tempDir patterns r with
    | Except.ok res => analyzeLoop tempDir patterns rest (results ++ [res]) log
    | Except.error e => analyzeLoop tempDir patterns rest results (log ++ [failLog r e])

/-- Model of `analyzeRepositories`: the upstream search result (the external
`gh` call, whose failure `searchRepositories` rethrows) either aborts the
run, or the per-repository loop runs to completion over the returned list.
The returned pair is the accumulated `results` plus the per-repository
failure log. -/
def analyzeRepositoriesFrom (tempDir : Path) (patterns : List String)
    (searchResult : Except String (List RepoInput)) :
    Except String (List AnalysisResult × List String) :=
  match searchResult with
  | Except.error e => Except.error e
  | Except.ok repos => Except.ok (analyzeLoop tempDir patterns repos [] [])

/-- The result of one repository in `Option` form (used to state which
repositories contribute an `AnalysisResult`). -/
def repoResult? (tempDir : Path) (patterns : List String) (r : RepoInput) :
    Option AnalysisResult :=
  match processRepo tempDir patterns r with
  | Except.ok res => some res
  | Except.error _ => none

/-- The failure-log entry of one repository in `Option` form. -/
def repoFailMsg? (tempDir : Path) (patterns : List String) (r : RepoInput) :
    Option String :=
  match processRepo tempDir patterns r with
  | Except.ok _ => none
  | Except.error e => some (failLog r e)

/-- A component path rendered back as the report prints it. -/
def pathToString (p : Path) : String := joinSlash p

/-- The per-repository heading and metadata lines of `generateReport`
(everything printed before the error check). -/
def sectionBase (i : Nat) (r : AnalysisResult) : String :=
  "## " ++ toString (i + 1) ++ ". " ++ r.repo.owner ++ "/" ++ r.repo.name ++ "\n\n" ++
  "**Description:** " ++ r.repo.description ++ "\n" ++
  "**Stars:** " ++ toString r.repo.stars ++ " | **Language:** " ++ r.repo.language ++ "\n" ++
  "**URL:** " ++ r.repo.url ++ "\n\n"

/-- The error line printed for a result whose analysis carries an error. -/
def errorLine (e : String) : String := "**Error:** " ++ e ++ "\n\n"

/-- The matching-file listing: up to ten paths, with an `... and N more`
suffix when truncated, or nothing when no file matched. -/
def matchingBlock (ms : List Path) : String :=
  if ms.length > 0 then
    "**Matching files found:**\n" ++
    String.join ((ms.take 10).map fun f => "- " ++ pathToString f ++ "\n") ++
    (if ms.length > 10 then
      "- ... and " ++ toString (ms.length - 10) ++ " more\n"
     else "") ++ "\n"
  else ""

/-- Stable descending insertion by count: the model of the JS stable
`sort(([,a],[,b]) => b - a)` over histogram entries. -/
def insertDesc (x : String × Nat) : List (String × Nat) → List (String × Nat)
  | [] => [x]
  | y :: ys => if x.2 ≤ y.2 then y :: insertDesc x ys else x :: y :: ys

/-- Stable descending sort by count. -/
def sortDesc (l : List (String × Nat)) : List (String × Nat) :=
  l.foldl (fun acc x => insertDesc x acc) []

/-- The top-file-types listing: the five most frequent extensions, or
nothing when the histogram is empty. -/
def topTypesBlock (ft : List (String × Nat)) : String :=
  let topTypes := (sortDesc ft).take 5
  if topTypes.length > 0 then
    "**Top file types:**\n" ++
    String.join (topTypes.map fun kv => "- " ++ kv.1 ++ ": " ++ toString kv.2 ++ " files\n") ++
    "\n"
  else ""

/-- The statistics block of a section: file counts, matching files, top file
types, and the closing separator. -/
def statsBlock (r : AnalysisResult) : String :=
  "**Files:** " ++ toString r.analysis.totalFiles ++ " total\n" ++
  "**Matching files:** " ++ toString r.matchingFiles.length ++ "\n\n" ++
  matchingBlock r.matchingFiles ++
  topTypesBlock r.analysis.fileTypes ++
  "---\n\n"

/-- One section of the report: metadata, then either the error line alone
(the early `return` of the source) or the statistics block. The source tests
truthiness of the error property; this model reads presence of the message,
not distinguishing an error whose message is the empty string. -/
def renderSection (i : Nat) (r : AnalysisResult) : String :=
  sectionBase i r ++
    (match r.analysis.error with
     | some e => errorLine e
     | none => statsBlock r)

/-- Model of `generateReport`, with the generation timestamp passed in. -/
def generateReport (timestamp : String) (results : List AnalysisResult) : String :=
  "# GitHub Repository Analysis Report\n\n" ++
  "Generated on: " ++ timestamp ++ "\n" ++
  "Total repositories analyzed: " ++ toString results.length ++ "\n\n" ++
  String.join (results.enum.map fun p => renderSection p.1 p.2)

/-- One digit of a given radix, per the ECMAScript `parseInt` digit set. -/
def digitVal? (radix : Nat) (c : Char) : Option Nat :=
  let v :=
    if '0' ≤ c && c ≤ '9' then some (c.toNat - '0'.toNat)
    else if 'a' ≤ c && c ≤ 'z' then some (c.toNat - 'a'.toNat + 10)
    else if 'A' ≤ c && c ≤ 'Z' then some (c.toNat - 'A'.toNat + 10)
    else none
  match v with
  | some n => if n < radix then some n else none
  | none => none

/-- The longest leading run of digits of the given radix. -/
def takeDigits (radix : Nat) : List Char → List Nat
  | [] => []
  | c :: cs =>
    match digitVal? radix c with
    | some n => n :: takeDigits radix cs
    | none => []

/-- ECMAScript whitespace accepted before the number. -/
def isWS (c : Char) : Bool :=
  c == ' ' || c == '\t' || c == '\n' || c == '\r' || c == '\x0b' || c == '\x0c'

/-- Model of JS `parseInt(s)` with the radix argument omitted: skip leading
whitespace, read an optional sign, detect a `0x` prefix, then read leading
digits; `none` models the `NaN` result when no digit is found. -/
def parseIntJS (s : String) : Option Int :=
  let cs := s.data.dropWhile isWS
  let signAndRest : Int × List Char :=
    match cs with
    | '-' :: rest => (-1, rest)
    | '+' :: rest => (1, rest)
    | _ => (1, cs)
  let radixAndRest : Nat × List Char :=
    match signAndRest.2 with
    | '0' :: 'x' :: rest => (16, rest)
    | '0' :: 'X' :: rest => (16, rest)
    | _ => (10, signAndRest.2)
  let ds := takeDigits radixAndRest.1 radixAndRest.2
  if ds.isEmpty then none
  else some (signAndRest.1 * (ds.foldl (fun acc d => acc * radixAndRest.1 + d) 0 : Nat))

/-- Model of the `--limit` computation in `main`: `none` stands for the JS
`NaN`. The parsed token must exist and be truthy (nonempty) for `parseInt`
to be consulted at all; otherwise the default 10 applies. -/
def computeLimit (args : List String) : Option Int :=
  match args.findIdx? (fun arg => arg == "--limit") with
  | none => some 10
  | some i =>
    match args[i + 1]? with
    | none => some 10
    | some tok => if tok == "" then some 10 else parseIntJS tok

/-- The test `/^\d+$/` of `main`: one or more digits and nothing else. -/
def isAllDigits (s : String) : Bool :=
  !s.data.isEmpty && s.data.all fun c => c.isDigit

/-- Model of the file-pattern computation in `main`:
`args.slice(1).filter(arg => arg !== '--limit' && !arg.match(/^\d+$/))`. -/
def computeFilePatterns (args : List String) : List String :=
  (args.drop 1).filter fun arg => arg != "--limit" && !isAllDigits arg

/-! Concrete inputs used to instantiate the theorems below. -/

/-- A small cloned tree: a matching file at the root and one nested file. -/
def toyRepoTree : FSNode :=
  FSNode.dirCons "rules.mdc" FSNode.file
    (FSNode.dirCons "src" (FSNode.dirCons "a.txt" FSNode.file FSNode.dirNil)
      FSNode.dirNil)

/-- A temporary-directory path (absolute, so its first component is the empty
string a leading separator splits off). -/
def toyTempDir : Path := ["", "tmp", "github-analysis-1"]

/-- A search record. -/
def toyRepoInfo : RepoInfo :=
  { name := "proj", owner := "alice", url := "https://example.test/alice/proj"
    description := "d", stars := 3, language := "TypeScript" }

/-- A repository whose clone succeeds with `toyRepoTree`. -/
def toyRepoInput : RepoInput := { repo := toyRepoInfo, clone := Except.ok toyRepoTree }

/-- A cloned tree holding an unreadable subdirectory, so the walk throws. -/
def badWalkTree : FSNode :=
  FSNode.dirCons "sub" (FSNode.badDir "EACCES: denied") FSNode.dirNil

/-- A repository whose clone succeeds but whose tree walk then fails. -/
def badWalkInput : RepoInput := { repo := toyRepoInfo, clone := Except.ok badWalkTree }

/-- A tree whose excluded directories hold files that would otherwise match. -/
def skippedDirsTree : FSNode :=
  FSNode.dirCons "node_modules"
    (FSNode.dirCons "evil.mdc" FSNode.file FSNode.dirNil)
    (FSNode.dirCons ".github"
      (FSNode.dirCons "x.yml" FSNode.file FSNode.dirNil)
      (FSNode.dirCons "a.txt" FSNode.file FSNode.dirNil))

/-- A default result used only as the fallback of `List.headD`. -/
def toyFallback : AnalysisResult :=
  { repo := toyRepoInfo, localPath := [], files := [], matchingFiles := []
    analysis := { totalFiles := 0, fileTypes := [], structureMap := []
                  readme := none, packageJson := none, specialFiles := []
                  error := none } }

/-- The results of the toy run. -/
def toyOut : List AnalysisResult :=
  (analyzeLoop toyTempDir ["*.mdc"] [toyRepoInput] [] []).1

/-- The failure log of the toy run. -/
def toyLog : List String :=
  (analyzeLoop toyTempDir ["*.mdc"] [toyRepoInput] [] []).2

/-- The single result the toy run accumulates. -/
def toyResult : AnalysisResult := toyOut.headD toyFallback

/-- A result whose analysis carries an error message. -/
def erroredResult : AnalysisResult :=
  { repo := toyRepoInfo, localPath := toyTempDir, files := [], matchingFiles := []
    analysis := { totalFiles := 0, fileTypes := [], structureMap := []
                  readme := none, packageJson := none, specialFiles := []
                  error := some "boom" } }

/-! ## Theorems -/

/-- Claim C2: for any pattern containing a star, the matcher builds the
case-insensitive regex obtained by replacing every star with dot-star and
tests it against both the base name and the last-three-segment fragment,
matching when either test succeeds; concretely, pattern `*.mdc` matches the
file `rules.mdc` and does not match the file `rules.md`. -/
theorem glob_star_regex_matching :
    (∀ (pattern : String) (p : Path), containsChar pattern '*' = true →
      patternMatches pattern p =
        (regexTestCI (globToRegex pattern) (basenameOf p) ||
         regexTestCI (globToRegex pattern) (relKey p))) ∧
    fileMatches ["*.mdc"] ["rules.mdc"] = true ∧
    fileMatches ["*.mdc"] ["rules.md"] = false := by
  refine ⟨?_, by decide, by decide⟩
  intro pattern p h
  simp [patternMatches, h]

/-- Claim C3: with an empty pattern list no file matches, and the file
filter reports no file. -/
theorem empty_patterns_match_nothing (f : Path) (files : List Path) :
    fileMatches [] f = false ∧ findMatchingFiles files [] = [] := by
  constructor
  · rfl
  · simp [findMatchingFiles, fileMatches]

/-- Claim C7, counterexample: with `--limit` followed by the non-numeric
token `abc`, the computed limit is the JS `NaN` (modelled `none`), not the
default 10. -/
theorem nonnumeric_limit_not_default_cex :
    computeLimit ["q", "--limit", "abc"] = none ∧
    computeLimit ["q", "--limit", "abc"] ≠ some 10 := by
  constructor <;> decide

/-- Claim C7 as amended: when `--limit` is followed by a nonempty token on
which `parseInt` finds no digits, the limit for the run is `NaN` (modelled
`none`), not the default 10; the default applies only when the flag is
absent or has no nonempty token after it. -/
theorem nonnumeric_limit_yields_nan (args : List String) (i : Nat) (tok : String)
    (hidx : args.findIdx? (fun arg => arg == "--limit") = some i)
    (htok : args[i + 1]? = some tok)
    (hne : tok ≠ "")
    (hnan : parseIntJS tok = none) :
    computeLimit args = none := by
  simp [computeLimit, hidx, htok, hne, hnan]

/-- Claim C7 witness: the amended statement at the concrete argument list
`q --limit abc`. -/
theorem nonnumeric_limit_yields_nan_witness :
    parseIntJS "abc" = none ∧ computeLimit ["q", "--limit", "abc"] = none :=
  ⟨by decide,
   nonnumeric_limit_yields_nan ["q", "--limit", "abc"] 1 "abc" (by decide)
     (by decide) (by decide) (by decide)⟩

/-- Claim C8, counterexample: the all-digit positional argument `2048` is
excluded from the file patterns even though no `--limit` flag precedes it,
so the patterns are not "all positional arguments but the first minus the
flag and its numeric argument". -/
theorem filepatterns_exclusion_cex :
    computeFilePatterns ["q", "2048"] = [] ∧
    computeFilePatterns ["q", "2048"] ≠ ["2048"] := by
  constructor <;> decide

/-- Claim C8 as amended: the file patterns are exactly the arguments after
the first, excluding every token equal to `--limit` and every token
consisting entirely of digits, wherever such a token occurs. -/
theorem filepatterns_characterization (args : List String) (a : String) :
    a ∈ computeFilePatterns args ↔
      (a ∈ args.drop 1 ∧ a ≠ "--limit" ∧ isAllDigits a = false) := by
  simp [computeFilePatterns, List.mem_filter, and_assoc]

/-- Claim C9: a result whose analysis carries an error renders as its
metadata followed by the error line alone; the file-count and file-type
statistics (and the closing separator) of `statsBlock` are skipped. -/
theorem error_result_renders_error_only (i : Nat) (r : AnalysisResult) (e : String)
    (herr : r.analysis.error = some e) :
    renderSection i r = sectionBase i r ++ errorLine e := by
  simp [renderSection, herr]

/-- Claim C9 witness: the errored result renders to its metadata plus the
error line. -/
theorem error_result_renders_error_only_witness :
    erroredResult.analysis.error = some "boom" ∧
    renderSection 0 erroredResult = sectionBase 0 erroredResult ++ errorLine "boom" :=
  ⟨rfl, error_result_renders_error_only 0 erroredResult "boom" rfl⟩

/-- Every path a successful walk returns decomposes as the walked root plus
a nonempty relative part, none of whose directory components is skippable,
and (for well-formed trees) none of whose components is empty. -/
theorem getAllFiles_shape :
    ∀ (t : FSNode) (dir : Path) (l : List Path),
      getAllFiles dir t = Except.ok l →
      ∀ p ∈ l, ∃ rel, p = dir ++ rel ∧ rel ≠ [] ∧
        (∀ c ∈ rel.dropLast, startsWithJS c ".git" = false ∧ c ≠ "node_modules") ∧
        (wfNames t = true → ∀ c ∈ rel, c ≠ "") := by
  intro t
  induction t with
  | file => intro dir l h; simp [getAllFiles] at h
  | badDir msg => intro dir l h; simp [getAllFiles] at h
  | dirNil =>
    intro dir l h p hp
    simp only [getAllFiles, Except.ok.injEq] at h
    subst h
    simp at hp
  | dirCons name child rest ihc ihr =>
    intro dir l h p hp
    simp only [getAllFiles] at h
    split at h
    · -- the entry is a directory
      split at h
      · -- skipped: the walk of the remaining entries produced l
        obtain ⟨rel, h1, h2, h3, h4⟩ := ihr dir l h p hp
        refine ⟨rel, h1, h2, h3, fun hw => h4 ?_⟩
        simp only [wfNames, Bool.and_eq_true] at hw
        exact hw.2
      · -- descended into the entry
        rename_i hskip
        split at h
        · exact absurd h (by simp)
        · rename_i sub hsub
          split at h
          · exact absurd h (by simp)
          · rename_i tailFiles htail
            simp only [Except.ok.injEq] at h
            subst h
            rcases List.mem_append.mp hp with hmem | hmem
            · obtain ⟨rel, h1, h2, h3, h4⟩ := ihc (dir ++ [name]) sub hsub p hmem
              have hsk : startsWithJS name ".git" = false ∧ (name == "node_modules") = false := by
                simpa [skipName, Bool.or_eq_true] using hskip
              refine ⟨name :: rel, ?_, by simp, ?_, ?_⟩
              · simpa [List.append_assoc] using h1
              · intro c hc
                rcases rel with _ | ⟨b, bs⟩
                · exact absurd rfl h2
                · simp only [List.dropLast, List.mem_cons] at hc
                  rcases hc with rfl | hc
                  · exact ⟨hsk.1, by simpa using hsk.2⟩
                  · exact h3 c (by simpa [List.dropLast] using hc)
              · intro hw c hc
                simp only [wfNames, Bool.and_eq_true] at hw
                rcases List.mem_cons.mp hc with rfl | hc
                · simpa using hw.1.1
                · exact h4 hw.1.2 c hc
            · obtain ⟨rel, h1, h2, h3, h4⟩ := ihr dir tailFiles htail p hmem
              refine ⟨rel, h1, h2, h3, fun hw => h4 ?_⟩
              simp only [wfNames, Bool.and_eq_true] at hw
              exact hw.2
    · -- the entry is a regular file
      split at h
      · exact absurd h (by simp)
      · rename_i tailFiles htail
        simp only [Except.ok.injEq] at h
        subst h
        rcases List.mem_cons.mp hp with rfl | hmem
        · refine ⟨[name], rfl, by simp, by simp, fun hw c hc => ?_⟩
          simp only [wfNames, Bool.and_eq_true] at hw
          rcases List.mem_singleton.mp hc with rfl
          simpa using hw.1.1
        · obtain ⟨rel, h1, h2, h3, h4⟩ := ihr dir tailFiles htail p hmem
          refine ⟨rel, h1, h2, h3, fun hw => h4 ?_⟩
          simp only [wfNames, Bool.and_eq_true] at hw
          exact hw.2

/-- Claim C4: a successful walk returns only paths that sit below the walked
root with no skippable directory component on the way: no component before
the file name starts with `.git` or equals `node_modules`, whatever the
tree holds inside such directories. -/
theorem walker_skips_excluded_dirs (dir : Path) (t : FSNode) (l : List Path) (p : Path)
    (h : getAllFiles dir t = Except.ok l) (hp : p ∈ l) :
    ∃ rel, p = dir ++ rel ∧ rel ≠ [] ∧
      ∀ c ∈ rel.dropLast, startsWithJS c ".git" = false ∧ c ≠ "node_modules" := by
  obtain ⟨rel, h1, h2, h3, _⟩ := getAllFiles_shape t dir l h p hp
  exact ⟨rel, h1, h2, h3⟩

/-- Claim C4 witness: on a tree whose `node_modules` and `.github`
directories hold files, the walk returns only the outside file, and that
path satisfies the statement. -/
theorem walker_skips_excluded_dirs_witness :
    getAllFiles ["root"] skippedDirsTree = Except.ok [["root", "a.txt"]] ∧
    (∃ rel, ["root", "a.txt"] = ["root"] ++ rel ∧ rel ≠ [] ∧
      ∀ c ∈ rel.dropLast, startsWithJS c ".git" = false ∧ c ≠ "node_modules") :=
  ⟨rfl,
   walker_skips_excluded_dirs ["root"] skippedDirsTree [["root", "a.txt"]]
     ["root", "a.txt"] rfl (by simp)⟩

/-- The orchestrator loop, closed form: it always terminates normally, the
accumulated results are exactly the results of the successful repositories
in order, and the log collects one entry per failed repository. -/
theorem analyzeLoop_eq (tempDir : Path) (patterns : List String) :
    ∀ (repos : List RepoInput) (results : List AnalysisResult) (log : List String),
      analyzeLoop tempDir patterns repos results log =
        (results ++ repos.filterMap (repoResult? tempDir patterns),
         log ++ repos.filterMap (repoFailMsg? tempDir patterns)) := by
  intro repos
  induction repos with
  | nil => intro results log; simp [analyzeLoop]
  | cons r rest ih =>
    intro results log
    cases h : processRepo tempDir patterns r with
    | ok res =>
      simp [analyzeLoop, h, ih, repoResult?, repoFailMsg?, List.filterMap_cons]
    | error e =>
      simp [analyzeLoop, h, ih, repoResult?, repoFailMsg?, List.filterMap_cons]

/-- A repository contributes a result exactly when its pipeline succeeded. -/
theorem repoResult?_eq_some (tempDir : Path) (patterns : List String)
    (r : RepoInput) (res : AnalysisResult) :
    repoResult? tempDir patterns r = some res ↔
      processRepo tempDir patterns r = Except.ok res := by
  unfold repoResult?
  cases h : processRepo tempDir patterns r <;> simp

/-- What a successful per-repository pipeline run consists of: a successful
clone, a successful walk, and the assembled result. -/
theorem processRepo_ok (tempDir : Path) (patterns : List String)
    (r : RepoInput) (res : AnalysisResult)
    (h : processRepo tempDir patterns r = Except.ok res) :
    ∃ tree allFiles,
      r.clone = Except.ok tree ∧
      getAllFiles (localPathOf tempDir r.repo) tree = Except.ok allFiles ∧
      res = { repo := r.repo
              localPath := localPathOf tempDir r.repo
              files := allFiles.map (stripRoot (localPathOf tempDir r.repo))
              matchingFiles :=
                (findMatchingFiles allFiles patterns).map
                  (stripRoot (localPathOf tempDir r.repo))
              analysis :=
                analyzeRepository (localPathOf tempDir r.repo) tree patterns } := by
  unfold processRepo at h
  cases hc : r.clone with
  | error e => rw [hc] at h; exact absurd h (by simp)
  | ok tree =>
    rw [hc] at h
    simp only at h
    cases hw : getAllFiles (localPathOf tempDir r.repo) tree with
    | error e => rw [hw] at h; exact absurd h (by simp)
    | ok allFiles =>
      rw [hw] at h
      simp only [Except.ok.injEq] at h
      exact ⟨tree, allFiles, rfl, hw, h.symm⟩

/-- Claim C5: a search failure is the only way the run fails. On a
successful search the loop always completes: the results are exactly those
of the repositories whose pipeline succeeded, in order, and a repository
whose clone failed contributes no result. -/
theorem per_repo_failure_isolated (tempDir : Path) (patterns : List String) :
    (∀ e : String,
      analyzeRepositoriesFrom tempDir patterns (Except.error e) = Except.error e) ∧
    (∀ repos : List RepoInput,
      analyzeRepositoriesFrom tempDir patterns (Except.ok repos) =
        Except.ok (repos.filterMap (repoResult? tempDir patterns),
                   repos.filterMap (repoFailMsg? tempDir patterns))) ∧
    (∀ (r : RepoInput) (e : String), r.clone = Except.error e →
      repoResult? tempDir patterns r = none) := by
  refine ⟨fun e => rfl, fun repos => ?_, fun r e hc => ?_⟩
  · simp [analyzeRepositoriesFrom, analyzeLoop_eq]
  · simp [repoResult?, processRepo, hc]

/-- Claim C6: a filesystem error thrown while walking a cloned repository
propagates out of the walk to the per-repository boundary (the pipeline
fails with that very error), where the orchestrator catches it: the loop
records the failure-log entry for that repository and continues with the
remaining repositories instead of aborting. -/
theorem walk_error_caught_by_orchestrator
    (tempDir : Path) (patterns : List String) (r : RepoInput) (tree : FSNode)
    (e : String) (rest : List RepoInput) (results : List AnalysisResult)
    (log : List String)
    (hclone : r.clone = Except.ok tree)
    (hwalk : getAllFiles (localPathOf tempDir r.repo) tree = Except.error e) :
    processRepo tempDir patterns r = Except.error e ∧
    analyzeLoop tempDir patterns (r :: rest) results log =
      analyzeLoop tempDir patterns rest results (log ++ [failLog r e]) := by
  have hp : processRepo tempDir patterns r = Except.error e := by
    simp [processRepo, hclone, hwalk]
  exact ⟨hp, by simp [analyzeLoop, hp]⟩

/-- Claim C6 witness: a repository whose clone holds an unreadable
subdirectory fails its walk; the orchestrator logs it and moves on. -/
theorem walk_error_caught_by_orchestrator_witness :
    badWalkInput.clone = Except.ok badWalkTree ∧
    getAllFiles (localPathOf toyTempDir badWalkInput.repo) badWalkTree =
      Except.error "EACCES: denied" ∧
    (processRepo toyTempDir [] badWalkInput = Except.error "EACCES: denied" ∧
     analyzeLoop toyTempDir [] [badWalkInput, toyRepoInput] [] [] =
       analyzeLoop toyTempDir [] [toyRepoInput] []
         ["Failed to analyze alice/proj: EACCES: denied"]) :=
  ⟨rfl, rfl,
   walk_error_caught_by_orchestrator toyTempDir [] badWalkInput badWalkTree
     "EACCES: denied" [toyRepoInput] [] [] rfl rfl⟩

/-- A list is a Boolean prefix of itself followed by anything. -/
theorem isPrefixOf_self_append {α : Type} [BEq α] [LawfulBEq α] (l t : List α) :
    l.isPrefixOf (l ++ t) = true := by
  induction l with
  | nil => simp [List.isPrefixOf]
  | cons a as ih => simp [List.isPrefixOf, ih]

/-- Stripping the walked root from a root-prefixed path leaves the relative
part. -/
theorem stripRoot_append (root rel : Path) :
    stripRoot root (root ++ rel) = rel := by
  simp [stripRoot, isPrefixOf_self_append, List.drop_left]

/-- Every result of a completed run comes from one of the searched
repositories via a successful pipeline. -/
theorem run_ok_mem (tempDir : Path) (patterns : List String)
    (repos : List RepoInput) (out : List AnalysisResult) (log : List String)
    (res : AnalysisResult)
    (hrun : analyzeRepositoriesFrom tempDir patterns (Except.ok repos) =
      Except.ok (out, log))
    (hmem : res ∈ out) :
    ∃ r ∈ repos, processRepo tempDir patterns r = Except.ok res := by
  simp only [analyzeRepositoriesFrom, analyzeLoop_eq, List.nil_append,
    Except.ok.injEq, Prod.mk.injEq] at hrun
  rw [← hrun.1] at hmem
  rcases List.mem_filterMap.mp hmem with ⟨r, hr, heq⟩
  exact ⟨r, hr, (repoResult?_eq_some tempDir patterns r res).mp heq⟩

/-- Claim C1: in every accumulated result the matching files are a subset of
the files, and both lists hold only paths relative to the clone root of
that repository: every listed path is nonempty and never carries the
clone-root prefix. (The temp directory is absolute — its first split
component is empty — and entry names in a real clone are nonempty.) -/
theorem matching_subset_and_relative
    (tempDir : Path) (patterns : List String) (repos : List RepoInput)
    (out : List AnalysisResult) (log : List String) (res : AnalysisResult)
    (habs : tempDir.head? = some "")
    (hwf : ∀ r ∈ repos, ∀ t, r.clone = Except.ok t → wfNames t = true)
    (hrun : analyzeRepositoriesFrom tempDir patterns (Except.ok repos) =
      Except.ok (out, log))
    (hmem : res ∈ out) :
    (∀ p ∈ res.matchingFiles, p ∈ res.files) ∧
    (∀ p ∈ res.files, p ≠ [] ∧ res.localPath.isPrefixOf p = false) := by
  obtain ⟨r, hr, hproc⟩ :=
    run_ok_mem tempDir patterns repos out log res hrun hmem
  obtain ⟨tree, allFiles, hclone, hwalk, hresEq⟩ :=
    processRepo_ok tempDir patterns r res hproc
  subst hresEq
  constructor
  · intro p hp
    simp only [List.mem_map, findMatchingFiles, List.mem_filter] at hp ⊢
    obtain ⟨q, hq, rfl⟩ := hp
    exact ⟨q, hq.1, rfl⟩
  · intro p hp
    simp only [List.mem_map] at hp
    obtain ⟨q, hq, rfl⟩ := hp
    obtain ⟨rel, rfl, hne, _, hcomp⟩ :=
      getAllFiles_shape tree (localPathOf tempDir r.repo) allFiles hwalk q hq
    have hcomps := hcomp (hwf r hr tree hclone)
    rw [stripRoot_append]
    refine ⟨hne, ?_⟩
    obtain ⟨td', htd⟩ : ∃ td', tempDir = "" :: td' := by
      cases tempDir with
      | nil => simp at habs
      | cons a as =>
        simp only [List.head?_cons, Option.some.injEq] at habs
        exact ⟨as, by rw [habs]⟩
    cases rel with
    | nil => exact absurd rfl hne
    | cons c cs =>
      have hc : ("" == c) = false :=
        beq_eq_false_iff_ne.mpr (Ne.symm (hcomps c (by simp)))
      simp [localPathOf, htd, List.isPrefixOf, hc]

/-- Claim C1 witness: the single result of the toy run, with hypotheses
checked at the concrete input. -/
theorem matching_subset_and_relative_witness :
    toyTempDir.head? = some "" ∧
    toyResult ∈ toyOut ∧
    ((∀ p ∈ toyResult.matchingFiles, p ∈ toyResult.files) ∧
     (∀ p ∈ toyResult.files, p ≠ [] ∧ toyResult.localPath.isPrefixOf p = false)) :=
  ⟨rfl, by decide,
   matching_subset_and_relative toyTempDir ["*.mdc"] [toyRepoInput] toyOut toyLog
     toyResult rfl
     (by
       intro r hr t ht
       rw [List.mem_singleton] at hr
       subst hr
       simp only [toyRepoInput, Except.ok.injEq] at ht
       subst ht
       decide)
     rfl (by decide)⟩

/-- Claim C10: for every repository whose result carries no error, the
probe field `totalFiles` equals the length of the file list the result
holds — the two
walks over the same unchanged clone agree. -/
theorem totalFiles_eq_files_length
    (tempDir : Path) (patterns : List String) (repos : List RepoInput)
    (out : List AnalysisResult) (log : List String) (res : AnalysisResult)
    (hrun : analyzeRepositoriesFrom tempDir patterns (Except.ok repos) =
      Except.ok (out, log))
    (hmem : res ∈ out)
    (hok : res.analysis.error = none) :
    res.analysis.totalFiles = res.files.length := by
  obtain ⟨r, hr, hproc⟩ :=
    run_ok_mem tempDir patterns repos out log res hrun hmem
  obtain ⟨tree, allFiles, hclone, hwalk, hresEq⟩ :=
    processRepo_ok tempDir patterns r res hproc
  subst hresEq
  simp [analyzeRepository, hwalk, List.length_map]

/-- Claim C10 witness: in the toy run the probe counted exactly the files
the result lists. -/
theorem totalFiles_eq_files_length_witness :
    toyResult ∈ toyOut ∧
    toyResult.analysis.error = none ∧
    toyResult.analysis.totalFiles = toyResult.files.length :=
  ⟨by decide, by decide,
   totalFiles_eq_files_length toyTempDir ["*.mdc"] [toyRepoInput] toyOut toyLog
     toyResult rfl (by decide) (by decide)⟩

end GithubSearch
